import Mathlib

/-!
# Verification of the qme filesystem database layer

Shallow embedding of `src/qme/main/database/filesystem.py`
(`FileSystemDatabase` and `FileSystemTask`) over an explicit filesystem
state.  JSON documents are association lists with Python `dict` update
semantics; fatal process exits (`bot.exit` / `sys.exit`) and uncaught
Python exceptions are modelled as an explicit error outcome.  External
collaborator utilities from `qme.utils.file` (`write_json`, `read_json`,
`mkdir_p`, `get_latest_modified`) and `qme.main.executor`
(`get_named_executor`) are not under `src/`; they are modelled from the
spec, each marked in its doc comment.
-/

namespace Qme

/-- A JSON value, the universe of values stored in task documents.
Objects and arrays carry lists of entries. -/
inductive Json where
  | str : String → Json
  | num : Int → Json
  | bool : Bool → Json
  | null : Json
  | arr : List Json → Json
  | obj : List (String × Json) → Json
deriving Repr

/-- A JSON document as Python sees it at top level: an insertion-ordered
dictionary from string keys to JSON values. -/
abbrev Doc := List (String × Json)

/-! ## Python dictionaries (insertion-ordered association lists) -/

/-- Look up key `k` in an association list (first match), as Python
`d[k]` / `d.get(k)` on a dict rendered as an insertion-ordered list. -/
def assocGet {α : Type} (l : List (String × α)) (k : String) : Option α :=
  match l with
  | [] => none
  | p :: rest => if p.1 = k then some p.2 else assocGet rest k

/-- Python `d[k] = v` on an insertion-ordered dict: replace the value in
place if the key is present, else append the new entry at the end. -/
def assocSet {α : Type} (l : List (String × α)) (k : String) (v : α) :
    List (String × α) :=
  match l with
  | [] => [(k, v)]
  | p :: rest => if p.1 = k then (k, v) :: rest else p :: assocSet rest k v

/-- Python `data.update(updates)`: shallow merge of the top-level keys of
`u` into `d`, in the iteration order of `u`. -/
def dictUpdate (d u : Doc) : Doc :=
  u.foldl (fun acc p => assocSet acc p.1 p.2) d

/-! ## Filesystem state

The filesystem is a pure state: JSON files as a map from path to parsed
document, plus the set of existing directories.  Paths are plain strings
joined with `/`; all paths in play are absolute (the Python code runs
`os.path.abspath` once at database creation and only ever joins below
that root, so `abspath` is the identity on every path we model). -/

structure FSState where
  files : List (String × Doc)
  dirs : List String
deriving Repr

/-- Model of `os.path.join a b` for a relative second component. -/
def os_path_join (a b : String) : String := a ++ "/" ++ b

/-- Model of `os.path.exists p`: true if `p` is an existing file or directory. -/
def os_path_exists (fs : FSState) (p : String) : Bool :=
  (fs.files.any fun q => q.1 = p) || (fs.dirs.any fun d => d = p)

/-- Model of `os.path.basename p`: the final path component (the characters after
the last `'/'`). -/
def os_path_basename (p : String) : String :=
  String.mk (p.data.foldl (fun acc c => if c = '/' then [] else acc ++ [c]) [])

/-- Modelled from Python's built-in `str.replace` for a non-empty
pattern: scan left to right, replacing each non-overlapping occurrence of
`pat` by `rep`.  The fuel argument (instantiated with the string length,
which bounds the number of steps) keeps the recursion structural. -/
def replaceListAux (pat rep : List Char) : Nat → List Char → List Char
  | _, [] => []
  | 0, l => l
  | fuel + 1, c :: rest =>
      if pat ≠ [] ∧ pat.isPrefixOf (c :: rest) then
        rep ++ replaceListAux pat rep fuel ((c :: rest).drop pat.length)
      else c :: replaceListAux pat rep fuel rest

/-- Python `s.replace(old, new)` (for non-empty `old`). -/
def py_replace (s old new : String) : String :=
  String.mk (replaceListAux old.data new.data s.data.length s.data)

/-- The task id `get_task` derives from a resolved latest path: the
path's basename with every occurrence of `".json"` removed. -/
def latest_taskid (p : String) : String :=
  py_replace (os_path_basename p) ".json" ""

/-- Model of `os.mkdir p` (plain, non-recursive): records the new directory. -/
def os_mkdir (fs : FSState) (p : String) : FSState :=
  { fs with dirs := fs.dirs ++ [p] }

/-- Fatal outcomes.  `fatalExit msg` is a clean process exit with a
human-readable message (`bot.exit` / `sys.exit`); `nameError v` is an
uncaught Python `NameError` on the unbound variable `v` (terminates the
process with a traceback, not a clean message); `otherError` covers
failures of external utilities outside the modelled behavior. -/
inductive PyError where
  | fatalExit : String → PyError
  | nameError : String → PyError
  | otherError : String → PyError
deriving DecidableEq, Repr

/-- Modelled from the spec: `qme.utils.file.write_json` serializes a
document and writes it to the path, "replacing any prior content in
full". -/
def write_json (fs : FSState) (data : Doc) (filename : String) : FSState :=
  { fs with files := assocSet fs.files filename data }

/-- Modelled from the spec: `qme.utils.file.read_json` parses the JSON
document stored at the path (callers only invoke it on existing files). -/
def read_json (fs : FSState) (filename : String) : Doc :=
  (assocGet fs.files filename).getD []

/-- Modelled from the spec: `qme.utils.file.mkdir_p` — "directory
creation (idempotent, no error if already present)". -/
def mkdir_p (fs : FSState) (p : String) : FSState :=
  if os_path_exists fs p then fs else { fs with dirs := fs.dirs ++ [p] }

/-- Modelled from the spec: `qme.utils.file.get_latest_modified` — the
"most recently modified file matching pattern" lookup: among the `*.json`
files found by the recursive scan under the root (given here as `scan`,
a list of (path, mtime) pairs in scan order), the path with the greatest
modification time; "latest mtime wins; ties resolved by whichever the
underlying directory scan returns first".  `none` when no file matches. -/
def latest_step (best : Option (String × Nat)) (p : String × Nat) :
    Option (String × Nat) :=
  match best with
  | none => some p
  | some b => if p.2 > b.2 then some p else some b

def get_latest_modified (scan : List (String × Nat)) : Option String :=
  (scan.foldl latest_step none).map Prod.fst

/-! ## Executors (external collaborators) -/

/-- The executor interface the storage layer consumes: `name`, `taskid`,
and `export()` (a pure, opaque JSON-serializable value; `export` is a
Lean keyword, hence the primed field name). -/
structure Executor where
  name : String
  taskid : String
  export' : Json
deriving Repr

/-- Modelled from the spec: `qme.main.executor.get_named_executor`
reconstructs an executor from its name prefix and a stored task id.  The
payload its `export()` later produces is executor-defined and external to
the storage layer; we model it by an environment `exportOf`. -/
def get_named_executor (exportOf : String → String → Json)
    (name taskid : String) : Executor :=
  ⟨name, taskid, exportOf name taskid⟩

/-! ## FileSystemTask -/

/-- A constructed `FileSystemTask`: its executor and the database root.
(The Python class defines no `__bool__` or `__len__`, so every instance
is truthy.) -/
structure FileSystemTask where
  executor : Executor
  data_base : String
deriving Repr

namespace FileSystemTask

/-- Model of `self.executor_dir`: `os.path.join(self.data_base, self.executor.name)`. -/
def executor_dir (t : FileSystemTask) : String :=
  os_path_join t.data_base t.executor.name

/-- Model of `self.filename`: `"%s.json" % os.path.join(self.executor_dir, self.executor.taskid)`. -/
def filename (t : FileSystemTask) : String :=
  os_path_join t.executor_dir t.executor.taskid ++ ".json"

/-- Model of `FileSystemTask.load`: the parsed document if the file exists, else
Python's implicit `None`. -/
def load (t : FileSystemTask) (fs : FSState) : Option Doc :=
  if os_path_exists fs t.filename then some (read_json fs t.filename) else none

/-- Model of `FileSystemTask.save`: write the document to `self.filename`. -/
def save (t : FileSystemTask) (data : Doc) (fs : FSState) : FSState :=
  write_json fs data t.filename

/-- Model of `FileSystemTask.update(updates=None)`: `updates = updates or {}`;
read the current document; if both the loaded document and `updates` are
truthy (non-`None`, non-empty), shallow-merge and rewrite.  Never errors. -/
def update (t : FileSystemTask) (updates : Option Doc) (fs : FSState) : FSState :=
  let updates := (updates.getD [])
  match load t fs with
  | none => fs
  | some data =>
      if !data.isEmpty && !updates.isEmpty then
        save t (dictUpdate data updates) fs
      else fs

/-- Model of `FileSystemTask.create(should_exist=False)`: when `should_exist` and
the file is absent, exit fatally (before any filesystem mutation);
otherwise ensure the executor directory exists, and when not
`should_exist`, write the initial document.  Returns the outcome together
with the filesystem state at that point. -/
def create (t : FileSystemTask) (should_exist : Bool) (fs : FSState) :
    Except PyError Unit × FSState :=
  if should_exist ∧ ¬ os_path_exists fs t.filename then
    (.error (.fatalExit
      (t.executor.taskid ++ " does not exist in the filesystem database")), fs)
  else
    let fs := if os_path_exists fs t.executor_dir then fs else os_mkdir fs t.executor_dir
    if ¬ should_exist then
      (.ok (), save t
        [("executor", Json.str t.executor.name),
         ("uid", Json.str t.executor.taskid),
         ("data", t.executor.export')] fs)
    else (.ok (), fs)

/-- Model of `FileSystemTask.__init__(executor, data_base, exists=False)`: bind
the executor and root, then run `create`. -/
def init (executor : Executor) (data_base : String) (should_exist : Bool)
    (fs : FSState) : Except PyError FileSystemTask × FSState :=
  let t : FileSystemTask := ⟨executor, data_base⟩
  match create t should_exist fs with
  | (.ok _, fs) => (.ok t, fs)
  | (.error e, fs) => (.error e, fs)

end FileSystemTask

/-! ## FileSystemDatabase -/

/-- Python truthiness of an optional string: `not taskid` is true for
`None` and for the empty string. -/
def pyFalsy : Option String → Bool
  | none => true
  | some s => s = ""

/-- The longest prefix of a character list before the first `'-'`. -/
def takeBeforeDash : List Char → List Char
  | [] => []
  | c :: cs => if c = '-' then [] else c :: takeBeforeDash cs

/-- Python `taskid.split("-", 1)[0]`: the substring before the first
hyphen (the whole string when there is no hyphen). -/
def split_first_dash (s : String) : String :=
  String.mk (takeBeforeDash s.data)

namespace FileSystemDatabase

/-- Model of `FileSystemDatabase.create_database(config_dir)`: compute the root as
`config_dir/database`; exit fatally if `config_dir` does not exist; create
the root with `mkdir_p` if it is missing.  Returns the computed
`self.data_base` with the resulting state. -/
def create_database (config_dir : String) (fs : FSState) :
    Except PyError String × FSState :=
  let data_base := os_path_join config_dir "database"
  if ¬ os_path_exists fs config_dir then
    (.error (.fatalExit (config_dir ++ " must exist to create database there.")), fs)
  else if ¬ os_path_exists fs data_base then
    (.ok data_base, mkdir_p fs data_base)
  else
    (.ok data_base, fs)

/-- Model of `FileSystemDatabase.add_task(executor)`: a new `FileSystemTask` bound
to the executor and root with `exists=False` (the constructor writes the
initial document). -/
def add_task (data_base : String) (executor : Executor) (fs : FSState) :
    Except PyError FileSystemTask × FSState :=
  FileSystemTask.init executor data_base false fs

/-- Model of `FileSystemDatabase.update_task(executor, updates=None)`: construct
the task with `exists=True`, then `task.update({"data": executor.export()})`.
The `updates` parameter is bound but never read in the Python body; it is
kept here so the call surface matches the source. -/
def update_task (data_base : String) (executor : Executor)
    (updates : Option Doc) (fs : FSState) : Except PyError Unit × FSState :=
  match FileSystemTask.init executor data_base true fs with
  | (.error e, fs) => (.error e, fs)
  | (.ok task, fs) =>
      (.ok (), FileSystemTask.update task (some [("data", executor.export')]) fs)

/-- Model of `FileSystemDatabase.get_task(taskid=None)`: when `taskid` is falsy,
resolve it as the basename of the most recently modified `*.json` file
under the root with every occurrence of `".json"` removed (Python
`str.replace` replaces all occurrences); split the resolved id on the
first hyphen to get the executor name, reconstruct the executor, and
construct the task with `exists=True`.  `scan` is the recursive `*.json`
scan under `self.data_base` consumed by `get_latest_modified`. -/
def get_task (data_base : String) (exportOf : String → String → Json)
    (taskid : Option String) (scan : List (String × Nat)) (fs : FSState) :
    Except PyError FileSystemTask × FSState :=
  let resolved : Option String :=
    if pyFalsy taskid then
      (get_latest_modified scan).map fun p =>
        py_replace (os_path_basename p) ".json" ""
    else taskid
  match resolved with
  | none =>
      (.error (.otherError "get_latest_modified found no file under the root"), fs)
  | some tid =>
      let ename := split_first_dash tid
      let executor := get_named_executor exportOf ename tid
      FileSystemTask.init executor data_base true fs

/-- Python default object truthiness: `FileSystemTask` defines no
`__bool__` or `__len__`, so `not task` is always false. -/
def task_is_falsy (_ : FileSystemTask) : Bool := false

/-- Model of `os.remove p`: delete a file; raises `FileNotFoundError` when absent
(modelled as `otherError`; unreachable from `delete_task`). -/
def os_remove (fs : FSState) (p : String) : Except PyError Unit × FSState :=
  if fs.files.any fun q => q.1 = p then
    (.ok (), { fs with files := fs.files.filter fun q => ¬ q.1 = p })
  else
    (.error (.otherError ("FileNotFoundError: " ++ p)), fs)

/-- Model of `FileSystemDatabase.delete_task(taskid)`: resolve via `get_task`,
exit fatally if the resolved task is falsy, then remove the task's file. -/
def delete_task (data_base : String) (exportOf : String → String → Json)
    (taskid : String) (scan : List (String × Nat)) (fs : FSState) :
    Except PyError Unit × FSState :=
  match get_task data_base exportOf (some taskid) scan fs with
  | (.error e, fs) => (.error e, fs)
  | (.ok task, fs) =>
      if task_is_falsy task then
        (.error (.fatalExit (taskid ++ " does not exist in the database.")), fs)
      else
        os_remove fs task.filename

/-- String prefix test, on the underlying character lists (kernel-
reducible, unlike `String.isPrefixOf`). -/
def str_isPrefixOf (a b : String) : Bool :=
  a.data.isPrefixOf b.data

/-- Model of `shutil.rmtree d`: remove the directory and everything below it. -/
def shutil_rmtree (fs : FSState) (d : String) : FSState :=
  { files := fs.files.filter fun q => ¬ str_isPrefixOf (d ++ "/") q.1,
    dirs := fs.dirs.filter fun p => ¬ (p = d ∨ str_isPrefixOf (d ++ "/") p) }

/-- Model of `FileSystemDatabase.delete_executor(name)`: if the executor directory
under the root does not exist, the Python body evaluates
`f"Executor {executor} does not exist."` — but `executor` is an unbound
name in that scope (the parameter is `name`), so the f-string raises
`NameError` before `bot.exit` is ever called.  Otherwise remove the whole
directory tree. -/
def delete_executor (data_base : String) (name : String) (fs : FSState) :
    Except PyError Unit × FSState :=
  let executor_dir := os_path_join data_base name
  if ¬ os_path_exists fs executor_dir then
    (.error (.nameError "executor"), fs)
  else
    (.ok (), shutil_rmtree fs executor_dir)

end FileSystemDatabase

/-! ## Helper lemmas -/

theorem assocGet_assocSet_self {α : Type} (l : List (String × α)) (k : String)
    (v : α) : assocGet (assocSet l k v) k = some v := by
  induction l with
  | nil => simp [assocSet, assocGet]
  | cons p rest ih =>
      by_cases h : p.1 = k
      · simp [assocSet, assocGet, h]
      · simp [assocSet, assocGet, h, ih]

theorem assocGet_assocSet_ne {α : Type} (l : List (String × α)) (k k' : String)
    (v : α) (h : k' ≠ k) :
    assocGet (assocSet l k v) k' = assocGet l k' := by
  induction l with
  | nil => simp [assocSet, assocGet, Ne.symm h]
  | cons p rest ih =>
      by_cases hp : p.1 = k
      · simp [assocSet, assocGet, hp, Ne.symm h]
      · simp [assocSet, assocGet, hp, ih]

theorem dictUpdate_single (d : Doc) (k : String) (v : Json) :
    dictUpdate d [(k, v)] = assocSet d k v := rfl

theorem files_write_json (fs : FSState) (d : Doc) (f : String) :
    (write_json fs d f).files = assocSet fs.files f d := rfl

theorem os_path_exists_write_json_self (fs : FSState) (d : Doc) (f : String) :
    os_path_exists (write_json fs d f) f = true := by
  unfold os_path_exists write_json
  simp only [Bool.or_eq_true, List.any_eq_true]
  left
  induction fs.files with
  | nil => exact ⟨(f, d), by simp [assocSet]⟩
  | cons p rest ih =>
      by_cases h : p.1 = f
      · exact ⟨(f, d), by simp [assocSet, h]⟩
      · obtain ⟨q, hq, hq2⟩ := ih
        exact ⟨q, by simp [assocSet, h, hq], hq2⟩

theorem read_json_write_json_self (fs : FSState) (d : Doc) (f : String) :
    read_json (write_json fs d f) f = d := by
  unfold read_json write_json
  simp [assocGet_assocSet_self]

theorem load_write_json_self (t : FileSystemTask) (d : Doc) (fs : FSState) :
    FileSystemTask.load t (write_json fs d t.filename) = some d := by
  unfold FileSystemTask.load
  rw [os_path_exists_write_json_self, read_json_write_json_self]
  simp

theorem load_eq_some_elim (t : FileSystemTask) (fs : FSState) (d : Doc)
    (h : FileSystemTask.load t fs = some d) :
    os_path_exists fs t.filename = true ∧ read_json fs t.filename = d := by
  unfold FileSystemTask.load at h
  by_cases he : os_path_exists fs t.filename = true
  · simp [he] at h
    exact ⟨he, h⟩
  · simp [he] at h

theorem os_path_exists_mkdir_mono (fs : FSState) (p q : String)
    (h : os_path_exists fs q = true) :
    os_path_exists (os_mkdir fs p) q = true := by
  simp only [os_path_exists, os_mkdir, Bool.or_eq_true, List.any_eq_true] at h ⊢
  rcases h with h | ⟨x, hx, hx2⟩
  · exact Or.inl h
  · exact Or.inr ⟨x, List.mem_append_left _ hx, hx2⟩

theorem read_json_mkdir (fs : FSState) (p q : String) :
    read_json (os_mkdir fs p) q = read_json fs q := rfl

theorem load_mkdir (t : FileSystemTask) (fs : FSState) (p : String) (d : Doc)
    (h : FileSystemTask.load t fs = some d) :
    FileSystemTask.load t (os_mkdir fs p) = some d := by
  obtain ⟨he, hr⟩ := load_eq_some_elim t fs d h
  unfold FileSystemTask.load
  rw [os_path_exists_mkdir_mono fs p _ he, read_json_mkdir, hr]
  simp

/-- Constructing with `exists=False` always succeeds and leaves
the state with the initial document written at the task's path. -/
theorem init_new_eq (ex : Executor) (db : String) (fs : FSState) :
    ∃ fs₁ : FSState,
      FileSystemTask.init ex db false fs = (.ok ⟨ex, db⟩, fs₁) ∧
      fs₁ = FileSystemTask.save ⟨ex, db⟩
        [("executor", Json.str ex.name),
         ("uid", Json.str ex.taskid),
         ("data", ex.export')]
        (if os_path_exists fs (FileSystemTask.executor_dir ⟨ex, db⟩) then fs
         else os_mkdir fs (FileSystemTask.executor_dir ⟨ex, db⟩)) := by
  unfold FileSystemTask.init FileSystemTask.create
  simp

/-- Constructing with `exists=True` on an existing file succeeds
and only (possibly) creates the executor directory. -/
theorem init_existing_eq (ex : Executor) (db : String) (fs : FSState)
    (h : os_path_exists fs (FileSystemTask.filename ⟨ex, db⟩) = true) :
    FileSystemTask.init ex db true fs =
      (.ok ⟨ex, db⟩,
       if os_path_exists fs (FileSystemTask.executor_dir ⟨ex, db⟩) then fs
       else os_mkdir fs (FileSystemTask.executor_dir ⟨ex, db⟩)) := by
  unfold FileSystemTask.init FileSystemTask.create
  simp [h]

/-- Constructing with `exists=True` on a missing file exits
fatally before any filesystem mutation. -/
theorem init_missing_eq (ex : Executor) (db : String) (fs : FSState)
    (h : os_path_exists fs (FileSystemTask.filename ⟨ex, db⟩) = false) :
    FileSystemTask.init ex db true fs =
      (.error (.fatalExit
        (ex.taskid ++ " does not exist in the filesystem database")), fs) := by
  unfold FileSystemTask.init FileSystemTask.create
  simp [h]

/-- Characterization of `takeBeforeDash l`: it is a prefix of `l`, it
contains no `'-'`, and what remains is either empty or starts with `'-'`. -/
theorem takeBeforeDash_spec (l : List Char) :
    ∃ rest : List Char,
      l = takeBeforeDash l ++ rest ∧
      '-' ∉ takeBeforeDash l ∧
      (rest = [] ∨ ∃ r', rest = '-' :: r') := by
  induction l with
  | nil => exact ⟨[], by simp [takeBeforeDash], by simp [takeBeforeDash], Or.inl rfl⟩
  | cons c cs ih =>
      by_cases h : c = '-'
      · refine ⟨c :: cs, by simp [takeBeforeDash, h], by simp [takeBeforeDash, h],
          Or.inr ⟨cs, by simp [h]⟩⟩
      · obtain ⟨rest, h1, h2, h3⟩ := ih
        refine ⟨rest, ?_, ?_, h3⟩
        · simpa [takeBeforeDash, h] using h1
        · simp only [takeBeforeDash, if_neg h, List.mem_cons, not_or]
          exact ⟨fun hh => h hh.symm, h2⟩

theorem os_path_exists_mkdir_self (fs : FSState) (p : String) :
    os_path_exists (os_mkdir fs p) p = true := by
  simp only [os_path_exists, os_mkdir, Bool.or_eq_true, List.any_eq_true]
  exact Or.inr ⟨p, List.mem_append_right _ (List.mem_singleton.mpr rfl), by simp⟩

/-- The two "does not exist" messages of the Task and Database layers can
never coincide: one ends in `'e'`, the other in `'.'`. -/
theorem task_db_msg_ne (a b : String) :
    a ++ " does not exist in the filesystem database" ≠
      b ++ " does not exist in the database." := by
  intro h
  have hd := congrArg String.data h
  rw [String.data_append, String.data_append] at hd
  have h1 := congrArg List.getLast? hd
  rw [List.getLast?_append_of_ne_nil _ (by decide),
    List.getLast?_append_of_ne_nil _ (by decide)] at h1
  exact absurd h1 (by decide)

/-- Every error outcome of `get_task` is either an external-utility
failure or the Task layer's own "does not exist in the filesystem
database" fatal exit. -/
theorem get_task_error_shape (db : String) (eo : String → String → Json)
    (tidOpt : Option String) (scan : List (String × Nat)) (fs fs' : FSState)
    (e : PyError)
    (h : FileSystemDatabase.get_task db eo tidOpt scan fs = (.error e, fs')) :
    (∃ s, e = .otherError s) ∨
      ∃ t, e = .fatalExit (t ++ " does not exist in the filesystem database") := by
  unfold FileSystemDatabase.get_task at h
  cases hres : (if pyFalsy tidOpt then
      (get_latest_modified scan).map
        (fun p => py_replace (os_path_basename p) ".json" "")
    else tidOpt) with
  | none =>
      rw [hres] at h
      simp only [Prod.mk.injEq, Except.error.injEq] at h
      exact Or.inl ⟨_, h.1.symm⟩
  | some tid =>
      rw [hres] at h
      simp only [] at h
      by_cases hex : os_path_exists fs
          (FileSystemTask.filename
            ⟨get_named_executor eo (split_first_dash tid) tid, db⟩) = true
      · rw [init_existing_eq _ _ _ hex] at h
        exact absurd (congrArg Prod.fst h) (by simp)
      · simp only [Bool.not_eq_true] at hex
        rw [init_missing_eq _ _ _ hex] at h
        simp only [Prod.mk.injEq, Except.error.injEq] at h
        exact Or.inr ⟨tid, h.1.symm⟩

/-- Once the running maximum holds an entry of maximal mtime, later
entries of mtime at most `m` never displace it. -/
theorem foldl_latest_step_fixed (l : List (String × Nat)) (p : String)
    (m : Nat) (h : ∀ q ∈ l, q.2 ≤ m) :
    l.foldl latest_step (some (p, m)) = some (p, m) := by
  induction l with
  | nil => rfl
  | cons q l ih =>
      have hq := h q (List.mem_cons_self q l)
      have hstep : latest_step (some (p, m)) q = some (p, m) := by
        simp [latest_step, Nat.not_lt.mpr hq]
      rw [List.foldl_cons, hstep]
      exact ih fun r hr => h r (List.mem_cons_of_mem q hr)

/-- The scan fold lands on the entry whose mtime strictly dominates every
other entry, whatever smaller-mtime accumulator it starts from. -/
theorem foldl_latest_step_max (p : String) (m : Nat) :
    ∀ (l : List (String × Nat)), (p, m) ∈ l →
    (∀ q ∈ l, q ≠ (p, m) → q.2 < m) →
    ∀ acc : Option (String × Nat),
      (acc = none ∨ ∃ b, acc = some b ∧ b.2 < m) →
    l.foldl latest_step acc = some (p, m) := by
  intro l
  induction l with
  | nil => intro hmem; exact absurd hmem (List.not_mem_nil _)
  | cons q l ih =>
      intro hmem hmax acc hacc
      rw [List.foldl_cons]
      by_cases hq : q = (p, m)
      · have hstep : latest_step acc q = some (p, m) := by
          rcases hacc with rfl | ⟨b, rfl, hb⟩
          · rw [hq]; rfl
          · rw [hq]; simp [latest_step, hb]
        rw [hstep]
        refine foldl_latest_step_fixed l p m fun r hr => ?_
        by_cases hr' : r = (p, m)
        · simp [hr']
        · exact le_of_lt (hmax r (List.mem_cons_of_mem q hr) hr')
      · have hql : q.2 < m := hmax q (List.mem_cons_self q l) hq
        have hmem' : (p, m) ∈ l := by
          rcases List.mem_cons.mp hmem with h | h
          · exact absurd h.symm hq
          · exact h
        refine ih hmem' (fun r hr hrne => hmax r (List.mem_cons_of_mem q hr) hrne)
          (latest_step acc q) ?_
        rcases hacc with rfl | ⟨b, rfl, hb⟩
        · exact Or.inr ⟨q, rfl, hql⟩
        · by_cases hcmp : q.2 > b.2
          · exact Or.inr ⟨q, by simp [latest_step, hcmp], hql⟩
          · exact Or.inr ⟨b, by simp [latest_step, hcmp], hb⟩

/-- The function `get_latest_modified` returns the path of the entry whose mtime
strictly dominates all other scan entries. -/
theorem get_latest_modified_max (scan : List (String × Nat)) (p : String)
    (m : Nat) (hmem : (p, m) ∈ scan)
    (hmax : ∀ q ∈ scan, q ≠ (p, m) → q.2 < m) :
    get_latest_modified scan = some p := by
  unfold get_latest_modified
  rw [foldl_latest_step_max p m scan hmem hmax none (Or.inl rfl)]
  rfl

/-- Updating an existing, non-empty document with a
non-empty updates dict merges and rewrites the file. -/
theorem update_existing_eq (t : FileSystemTask) (fs : FSState) (d u : Doc)
    (hload : FileSystemTask.load t fs = some d) (hd : d ≠ []) (hu : u ≠ []) :
    FileSystemTask.update t (some u) fs =
      write_json fs (dictUpdate d u) t.filename := by
  unfold FileSystemTask.update
  rw [hload]
  simp [hd, hu, FileSystemTask.save]

/-! ## Claims -/

/-- C1: for every executor name, task id and export payload, `add_task`
(task construction with `exists=False`) followed by `load` on the task
file yields a document whose `data` field deep-equals the original export
payload, whose `executor` field equals the executor's name, and whose
`uid` field equals the task id. -/
theorem claim_C1_addTask_load_roundtrip (ex : Executor) (db : String)
    (fs : FSState) :
    ∃ (t : FileSystemTask) (fs' : FSState) (doc : Doc),
      FileSystemDatabase.add_task db ex fs = (.ok t, fs') ∧
      FileSystemTask.load t fs' = some doc ∧
      assocGet doc "data" = some ex.export' ∧
      assocGet doc "executor" = some (Json.str ex.name) ∧
      assocGet doc "uid" = some (Json.str ex.taskid) := by
  obtain ⟨fs₁, h1, h2⟩ := init_new_eq ex db fs
  refine ⟨⟨ex, db⟩, fs₁,
    [("executor", Json.str ex.name), ("uid", Json.str ex.taskid),
     ("data", ex.export')], h1, ?_, ?_, ?_, ?_⟩
  · rw [h2]
    exact load_write_json_self _ _ _
  · simp [assocGet]
  · simp [assocGet]
  · simp [assocGet]

/-- Witness for C1 at a concrete executor and fresh filesystem. -/
theorem claim_C1_witness :
    ∃ (t : FileSystemTask) (fs' : FSState) (doc : Doc),
      FileSystemDatabase.add_task "/r" ⟨"shell", "shell-1", Json.num 3⟩
        ⟨[], ["/r"]⟩ = (.ok t, fs') ∧
      FileSystemTask.load t fs' = some doc ∧
      assocGet doc "data" = some (Json.num 3) ∧
      assocGet doc "executor" = some (Json.str "shell") ∧
      assocGet doc "uid" = some (Json.str "shell-1") :=
  claim_C1_addTask_load_roundtrip ⟨"shell", "shell-1", Json.num 3⟩ "/r"
    ⟨[], ["/r"]⟩

/-- C3: constructing a task with `exists=True` for a task id whose backing
file does not exist terminates fatally with an error naming the task id,
and leaves the filesystem state completely unchanged (no file created, no
write, no directory created). -/
theorem claim_C3_construct_exists_missing_fatal (ex : Executor) (db : String)
    (fs : FSState)
    (h : os_path_exists fs (FileSystemTask.filename ⟨ex, db⟩) = false) :
    FileSystemTask.init ex db true fs =
      (.error (.fatalExit
        (ex.taskid ++ " does not exist in the filesystem database")), fs) :=
  init_missing_eq ex db fs h

/-- Witness for C3 at a concrete missing file. -/
theorem claim_C3_witness :
    os_path_exists ⟨[], []⟩
      (FileSystemTask.filename ⟨⟨"shell", "shell-1", Json.null⟩, "/r"⟩) = false ∧
    FileSystemTask.init ⟨"shell", "shell-1", Json.null⟩ "/r" true ⟨[], []⟩ =
      (.error (.fatalExit
        ("shell-1" ++ " does not exist in the filesystem database")),
       (⟨[], []⟩ : FSState)) :=
  ⟨by decide,
   claim_C3_construct_exists_missing_fatal ⟨"shell", "shell-1", Json.null⟩ "/r"
     ⟨[], []⟩ (by decide)⟩

/-- C4: for every task whose backing file does not exist, `update` (with
any updates mapping) is a silent no-op: the filesystem state is unchanged
and the call returns normally (`update` has no error outcome at all). -/
theorem claim_C4_update_missing_noop (ex : Executor) (db : String)
    (u : Option Doc) (fs : FSState)
    (h : os_path_exists fs (FileSystemTask.filename ⟨ex, db⟩) = false) :
    FileSystemTask.update ⟨ex, db⟩ u fs = fs := by
  unfold FileSystemTask.update FileSystemTask.load
  simp [h]

/-- Witness for C4 at a concrete missing file and non-trivial updates. -/
theorem claim_C4_witness :
    os_path_exists ⟨[], ["/r"]⟩
      (FileSystemTask.filename ⟨⟨"shell", "shell-1", Json.null⟩, "/r"⟩) = false ∧
    FileSystemTask.update ⟨⟨"shell", "shell-1", Json.null⟩, "/r"⟩
      (some [("data", Json.num 7)]) ⟨[], ["/r"]⟩ = (⟨[], ["/r"]⟩ : FSState) :=
  ⟨by decide,
   claim_C4_update_missing_noop ⟨"shell", "shell-1", Json.null⟩ "/r"
     (some [("data", Json.num 7)]) ⟨[], ["/r"]⟩ (by decide)⟩

/-- C2: for an existing task with a non-empty stored document,
`update_task` merges exactly `{"data": executor.export()}` into the
stored document, and the caller-supplied `updates` argument has no effect
whatsoever: the whole outcome is the same for any two values of it. -/
theorem claim_C2_updateTask_ignores_updates (db : String) (ex : Executor)
    (u₁ u₂ : Option Doc) (fs : FSState) (d : Doc)
    (hload : FileSystemTask.load ⟨ex, db⟩ fs = some d) (hd : d ≠ []) :
    FileSystemDatabase.update_task db ex u₁ fs =
      FileSystemDatabase.update_task db ex u₂ fs ∧
    ∃ fs', FileSystemDatabase.update_task db ex u₁ fs = (.ok (), fs') ∧
      FileSystemTask.load ⟨ex, db⟩ fs' =
        some (dictUpdate d [("data", ex.export')]) := by
  constructor
  · rfl
  · obtain ⟨hex, _⟩ := load_eq_some_elim _ fs d hload
    have hinit := init_existing_eq ex db fs hex
    have hload₁ :
        FileSystemTask.load ⟨ex, db⟩
          (if os_path_exists fs (FileSystemTask.executor_dir ⟨ex, db⟩) then fs
           else os_mkdir fs (FileSystemTask.executor_dir ⟨ex, db⟩)) = some d := by
      by_cases hdir : os_path_exists fs (FileSystemTask.executor_dir ⟨ex, db⟩) = true
      · simp [hdir, hload]
      · simp only [Bool.not_eq_true] at hdir
        simp [hdir, load_mkdir _ fs _ d hload]
    refine ⟨FileSystemTask.update ⟨ex, db⟩ (some [("data", ex.export')])
      (if os_path_exists fs (FileSystemTask.executor_dir ⟨ex, db⟩) then fs
       else os_mkdir fs (FileSystemTask.executor_dir ⟨ex, db⟩)), ?_, ?_⟩
    · unfold FileSystemDatabase.update_task
      rw [hinit]
    · rw [update_existing_eq _ _ d _ hload₁ hd (by simp)]
      exact load_write_json_self _ _ _

/-- Witness for C2: a concrete existing task; two different `updates`
arguments give identical results, and only `data` is overwritten. -/
theorem claim_C2_witness :
    FileSystemDatabase.update_task "/r" ⟨"shell", "shell-1", Json.num 42⟩
        (some [("uid", Json.str "evil")]) ⟨[("/r/shell/shell-1.json",
          [("executor", Json.str "shell"), ("uid", Json.str "shell-1"),
           ("data", Json.null)])], ["/r", "/r/shell"]⟩ =
      FileSystemDatabase.update_task "/r" ⟨"shell", "shell-1", Json.num 42⟩
        none ⟨[("/r/shell/shell-1.json",
          [("executor", Json.str "shell"), ("uid", Json.str "shell-1"),
           ("data", Json.null)])], ["/r", "/r/shell"]⟩ ∧
    ∃ fs', FileSystemDatabase.update_task "/r" ⟨"shell", "shell-1", Json.num 42⟩
        (some [("uid", Json.str "evil")]) ⟨[("/r/shell/shell-1.json",
          [("executor", Json.str "shell"), ("uid", Json.str "shell-1"),
           ("data", Json.null)])], ["/r", "/r/shell"]⟩ = (.ok (), fs') ∧
      FileSystemTask.load ⟨⟨"shell", "shell-1", Json.num 42⟩, "/r"⟩ fs' =
        some (dictUpdate
          [("executor", Json.str "shell"), ("uid", Json.str "shell-1"),
           ("data", Json.null)] [("data", Json.num 42)]) :=
  claim_C2_updateTask_ignores_updates "/r" ⟨"shell", "shell-1", Json.num 42⟩
    (some [("uid", Json.str "evil")]) none
    ⟨[("/r/shell/shell-1.json",
       [("executor", Json.str "shell"), ("uid", Json.str "shell-1"),
        ("data", Json.null)])], ["/r", "/r/shell"]⟩
    [("executor", Json.str "shell"), ("uid", Json.str "shell-1"),
     ("data", Json.null)]
    rfl (by simp)

/-- C5: updating an existing task whose stored document is non-empty with
`{"data": X}` replaces only the top-level `data` key; every other
top-level key (in particular `executor` and `uid`) is unchanged after the
rewrite. -/
theorem claim_C5_update_merge_frame (t : FileSystemTask) (fs : FSState)
    (d : Doc) (X : Json)
    (hload : FileSystemTask.load t fs = some d) (hd : d ≠ []) :
    ∃ d', FileSystemTask.load t
        (FileSystemTask.update t (some [("data", X)]) fs) = some d' ∧
      d' = dictUpdate d [("data", X)] ∧
      assocGet d' "data" = some X ∧
      ∀ k, k ≠ "data" → assocGet d' k = assocGet d k := by
  rw [update_existing_eq t fs d [("data", X)] hload hd (by simp)]
  refine ⟨dictUpdate d [("data", X)], load_write_json_self _ _ _, rfl, ?_, ?_⟩
  · rw [dictUpdate_single]
    exact assocGet_assocSet_self d "data" X
  · intro k hk
    rw [dictUpdate_single]
    exact assocGet_assocSet_ne d "data" k X hk

/-- Witness for C5 at a concrete stored document: `data` is replaced,
`executor` and `uid` are untouched. -/
theorem claim_C5_witness :
    ∃ d', FileSystemTask.load ⟨⟨"shell", "shell-1", Json.null⟩, "/r"⟩
        (FileSystemTask.update ⟨⟨"shell", "shell-1", Json.null⟩, "/r"⟩
          (some [("data", Json.num 9)])
          ⟨[("/r/shell/shell-1.json",
             [("executor", Json.str "shell"), ("uid", Json.str "shell-1"),
              ("data", Json.null)])], ["/r", "/r/shell"]⟩) = some d' ∧
      d' = dictUpdate
        [("executor", Json.str "shell"), ("uid", Json.str "shell-1"),
         ("data", Json.null)] [("data", Json.num 9)] ∧
      assocGet d' "data" = some (Json.num 9) ∧
      ∀ k, k ≠ "data" →
        assocGet d' k = assocGet
          [("executor", Json.str "shell"), ("uid", Json.str "shell-1"),
           ("data", Json.null)] k :=
  claim_C5_update_merge_frame ⟨⟨"shell", "shell-1", Json.null⟩, "/r"⟩
    ⟨[("/r/shell/shell-1.json",
       [("executor", Json.str "shell"), ("uid", Json.str "shell-1"),
        ("data", Json.null)])], ["/r", "/r/shell"]⟩
    [("executor", Json.str "shell"), ("uid", Json.str "shell-1"),
     ("data", Json.null)] (Json.num 9) rfl (by simp)

/-- C6: `get_task` splits the task id on the first hyphen only: the task
it returns carries an executor whose name is `split_first_dash taskid`
(and whose task id is the full task id); `split_first_dash` is exactly
"the substring before the first hyphen" (a hyphen-free prefix, with the
remainder empty or starting with a hyphen); in particular the task id
`"shell-1234-5678-uuid"` resolves to executor name `"shell"`. -/
theorem claim_C6_first_hyphen_split :
    (∀ (db tid : String) (exportOf : String → String → Json)
        (scan : List (String × Nat)) (fs : FSState)
        (t : FileSystemTask) (fs' : FSState),
      tid ≠ "" →
      FileSystemDatabase.get_task db exportOf (some tid) scan fs = (.ok t, fs') →
      t.executor.name = split_first_dash tid ∧ t.executor.taskid = tid) ∧
    (∀ s : String, ∃ rest : List Char,
      s.data = (split_first_dash s).data ++ rest ∧
      '-' ∉ (split_first_dash s).data ∧
      (rest = [] ∨ ∃ r', rest = '-' :: r')) ∧
    split_first_dash "shell-1234-5678-uuid" = "shell" := by
  refine ⟨?_, ?_, by decide⟩
  · intro db tid exportOf scan fs t fs' htid hok
    simp only [FileSystemDatabase.get_task, pyFalsy, htid, decide_False,
      Bool.false_eq_true, if_false] at hok
    by_cases hex : os_path_exists fs
        (FileSystemTask.filename
          ⟨get_named_executor exportOf (split_first_dash tid) tid, db⟩) = true
    · rw [init_existing_eq _ _ _ hex] at hok
      have ht := congrArg Prod.fst hok
      simp only at ht
      cases ht
      exact ⟨rfl, rfl⟩
    · simp only [Bool.not_eq_true] at hex
      rw [init_missing_eq _ _ _ hex] at hok
      exact absurd (congrArg Prod.fst hok) (by simp)
  · intro s
    exact takeBeforeDash_spec s.data

/-- Witness for C6: the task returned by `get_task` at the concrete task
id `"shell-1234-5678-uuid"` has executor name `split_first_dash` of it,
i.e. `"shell"`. -/
theorem claim_C6_witness :
    (⟨⟨"shell", "shell-1234-5678-uuid", Json.null⟩, "/r"⟩
        : FileSystemTask).executor.name =
      split_first_dash "shell-1234-5678-uuid" ∧
    (⟨⟨"shell", "shell-1234-5678-uuid", Json.null⟩, "/r"⟩
        : FileSystemTask).executor.taskid = "shell-1234-5678-uuid" :=
  claim_C6_first_hyphen_split.1 "/r" "shell-1234-5678-uuid"
    (fun _ _ => Json.null) []
    ⟨[("/r/shell/shell-1234-5678-uuid.json", [("executor", Json.str "shell")])],
     ["/r", "/r/shell"]⟩
    ⟨⟨"shell", "shell-1234-5678-uuid", Json.null⟩, "/r"⟩
    ⟨[("/r/shell/shell-1234-5678-uuid.json", [("executor", Json.str "shell")])],
     ["/r", "/r/shell"]⟩
    (by decide) (by rfl)

/-- C8: database initialization exits fatally exactly when the
configuration directory does not exist; when it exists, the root
`configDir/database` is created if absent and re-initialization at the
same configuration directory never errors, changes nothing, and leaves
exactly one `database` directory. -/
theorem claim_C8_create_database_idempotent (cfg : String) (fs : FSState) :
    (os_path_exists fs cfg = false →
      FileSystemDatabase.create_database cfg fs =
        (.error (.fatalExit (cfg ++ " must exist to create database there.")),
         fs)) ∧
    (os_path_exists fs cfg = true →
      ∃ fs', FileSystemDatabase.create_database cfg fs =
          (.ok (os_path_join cfg "database"), fs') ∧
        os_path_exists fs' (os_path_join cfg "database") = true ∧
        FileSystemDatabase.create_database cfg fs' =
          (.ok (os_path_join cfg "database"), fs') ∧
        fs'.files = fs.files ∧
        (os_path_exists fs (os_path_join cfg "database") = false →
          fs'.dirs.count (os_path_join cfg "database") = 1) ∧
        (os_path_exists fs (os_path_join cfg "database") = true → fs' = fs)) := by
  constructor
  · intro h
    unfold FileSystemDatabase.create_database
    simp [h]
  · intro h
    by_cases hdb : os_path_exists fs (os_path_join cfg "database") = true
    · refine ⟨fs, ?_, hdb, ?_, rfl, ?_, fun _ => rfl⟩
      · unfold FileSystemDatabase.create_database
        simp [h, hdb]
      · unfold FileSystemDatabase.create_database
        simp [h, hdb]
      · intro hc
        rw [hdb] at hc
        cases hc
    · simp only [Bool.not_eq_true] at hdb
      have hmk : mkdir_p fs (os_path_join cfg "database") =
          os_mkdir fs (os_path_join cfg "database") := by
        unfold mkdir_p os_mkdir
        simp [hdb]
      refine ⟨os_mkdir fs (os_path_join cfg "database"), ?_, ?_, ?_, rfl, ?_, ?_⟩
      · unfold FileSystemDatabase.create_database
        simp [h, hdb, hmk]
      · exact os_path_exists_mkdir_self fs _
      · unfold FileSystemDatabase.create_database
        simp [os_path_exists_mkdir_mono fs _ cfg h,
          os_path_exists_mkdir_self fs _]
      · intro _
        have hnotmem : os_path_join cfg "database" ∉ fs.dirs := by
          intro hmem
          have : os_path_exists fs (os_path_join cfg "database") = true := by
            simp only [os_path_exists, Bool.or_eq_true, List.any_eq_true]
            exact Or.inr ⟨_, hmem, by simp⟩
          rw [this] at hdb
          cases hdb
        simp [os_mkdir, List.count_append, List.count_eq_zero.mpr hnotmem]
      · intro hc
        rw [hc] at hdb
        cases hdb

/-- Witness for C8: a fresh configuration directory; the database
directory is created once and re-initialization is a no-op. -/
theorem claim_C8_witness :
    ∃ fs', FileSystemDatabase.create_database "/cfg" ⟨[], ["/cfg"]⟩ =
        (.ok (os_path_join "/cfg" "database"), fs') ∧
      os_path_exists fs' (os_path_join "/cfg" "database") = true ∧
      FileSystemDatabase.create_database "/cfg" fs' =
        (.ok (os_path_join "/cfg" "database"), fs') ∧
      fs'.dirs.count (os_path_join "/cfg" "database") = 1 := by
  obtain ⟨fs', h1, h2, h3, _, hcount, _⟩ :=
    (claim_C8_create_database_idempotent "/cfg" ⟨[], ["/cfg"]⟩).2 (by decide)
  exact ⟨fs', h1, h2, h3, hcount (by decide)⟩

/-- C9 (code bug): `delete_executor` on a missing executor directory
evaluates the f-string `f"Executor {executor} does not exist."`, whose
`executor` is an unbound name in that scope (the parameter is `name`), so
the call dies with a `NameError` — not with a fatal exit naming the
offending executor as the spec requires — though it indeed removes
nothing.  On an existing directory it removes the whole subtree. -/
theorem claim_C9_delete_executor_name_error :
    FileSystemDatabase.delete_executor "/r" "shell" ⟨[], ["/r"]⟩ =
      (.error (.nameError "executor"), (⟨[], ["/r"]⟩ : FSState)) ∧
    (∀ msg : String,
      (FileSystemDatabase.delete_executor "/r" "shell" ⟨[], ["/r"]⟩).1 ≠
        .error (.fatalExit msg)) ∧
    FileSystemDatabase.delete_executor "/r" "shell"
        ⟨[("/r/shell/shell-1.json",
           [("executor", Json.str "shell")])], ["/r", "/r/shell"]⟩ =
      (.ok (), (⟨[], ["/r"]⟩ : FSState)) := by
  refine ⟨rfl, ?_, rfl⟩
  intro msg h
  have : (FileSystemDatabase.delete_executor "/r" "shell" ⟨[], ["/r"]⟩).1 =
      .error (.nameError "executor") := rfl
  rw [this] at h
  cases h

/-- C10: the not-found guard in `delete_task` is dead code: `get_task`
either returns a task object — which, having Python default truthiness,
is never falsy — or terminates the process inside the Task layer with a
different message, so `delete_task` never raises its own
"does not exist in the database." fatal exit. -/
theorem claim_C10_delete_task_guard_unreachable (db : String)
    (eo : String → String → Json) (tid : String)
    (scan : List (String × Nat)) (fs : FSState) :
    (FileSystemDatabase.delete_task db eo tid scan fs).1 ≠
      .error (.fatalExit (tid ++ " does not exist in the database.")) ∧
    ∀ t : FileSystemTask, FileSystemDatabase.task_is_falsy t = false := by
  refine ⟨?_, fun _ => rfl⟩
  unfold FileSystemDatabase.delete_task
  cases hgt : FileSystemDatabase.get_task db eo (some tid) scan fs with
  | mk r s =>
      cases r with
      | error e =>
          simp only
          intro h
          rcases get_task_error_shape db eo (some tid) scan fs s e hgt with
            ⟨msg, rfl⟩ | ⟨t', rfl⟩
          · cases h
          · exact task_db_msg_ne t' tid (by injection h with h'; injection h')
      | ok task =>
          simp only [FileSystemDatabase.task_is_falsy, Bool.false_eq_true,
            if_false]
          unfold FileSystemDatabase.os_remove
          split <;> simp

/-- C7: when `get_task` is called with no task id and the scan of task
files has one entry whose modification time strictly dominates all
others, it resolves to that file: `get_latest_modified` returns its path,
`get_task` constructs the task for `latest_taskid` of that path (the
basename with `".json"` stripped), and — when the corresponding task file
exists — returns that task. -/
theorem claim_C7_latest_task_resolution (scan : List (String × Nat))
    (p : String) (m : Nat) (hmem : (p, m) ∈ scan)
    (hmax : ∀ q ∈ scan, q ≠ (p, m) → q.2 < m) :
    get_latest_modified scan = some p ∧
    (∀ (db : String) (eo : String → String → Json) (fs : FSState),
      FileSystemDatabase.get_task db eo none scan fs =
        FileSystemTask.init
          (get_named_executor eo (split_first_dash (latest_taskid p))
            (latest_taskid p)) db true fs) ∧
    (∀ (db : String) (eo : String → String → Json) (fs : FSState),
      os_path_exists fs
        (FileSystemTask.filename
          ⟨get_named_executor eo (split_first_dash (latest_taskid p))
            (latest_taskid p), db⟩) = true →
      ∃ fs', FileSystemDatabase.get_task db eo none scan fs =
          (.ok ⟨get_named_executor eo (split_first_dash (latest_taskid p))
            (latest_taskid p), db⟩, fs') ∧
        (get_named_executor eo (split_first_dash (latest_taskid p))
          (latest_taskid p)).taskid = latest_taskid p) := by
  have h1 : get_latest_modified scan = some p :=
    get_latest_modified_max scan p m hmem hmax
  have h2 : ∀ (db : String) (eo : String → String → Json) (fs : FSState),
      FileSystemDatabase.get_task db eo none scan fs =
        FileSystemTask.init
          (get_named_executor eo (split_first_dash (latest_taskid p))
            (latest_taskid p)) db true fs := by
    intro db eo fs
    unfold FileSystemDatabase.get_task
    simp [pyFalsy, h1, latest_taskid]
  refine ⟨h1, h2, ?_⟩
  intro db eo fs hex
  rw [h2 db eo fs, init_existing_eq _ _ _ hex]
  exact ⟨_, rfl, rfl⟩

/-- Witness for C7 at a concrete three-file scan with distinct
modification times. -/
theorem claim_C7_witness :
    get_latest_modified
        [("/r/a/a-1.json", 5), ("/r/b/b-2.json", 9), ("/r/a/a-3.json", 7)] =
      some "/r/b/b-2.json" ∧
    ∃ fs', FileSystemDatabase.get_task "/r" (fun _ _ => Json.null) none
        [("/r/a/a-1.json", 5), ("/r/b/b-2.json", 9), ("/r/a/a-3.json", 7)]
        ⟨[("/r/b/b-2.json", [("executor", Json.str "b")])], ["/r", "/r/b"]⟩ =
        (.ok ⟨get_named_executor (fun _ _ => Json.null)
          (split_first_dash (latest_taskid "/r/b/b-2.json"))
          (latest_taskid "/r/b/b-2.json"), "/r"⟩, fs') ∧
      (get_named_executor (fun _ _ => Json.null)
        (split_first_dash (latest_taskid "/r/b/b-2.json"))
        (latest_taskid "/r/b/b-2.json")).taskid = latest_taskid "/r/b/b-2.json" := by
  have h := claim_C7_latest_task_resolution
    [("/r/a/a-1.json", 5), ("/r/b/b-2.json", 9), ("/r/a/a-3.json", 7)]
    "/r/b/b-2.json" 9 (by decide) (by decide)
  obtain ⟨fs', h2, h3⟩ := h.2.2 "/r" (fun _ _ => Json.null)
    ⟨[("/r/b/b-2.json", [("executor", Json.str "b")])], ["/r", "/r/b"]⟩
    (by decide)
  exact ⟨h.1, fs', h2, h3⟩

/-- Witness for C10 at a concrete task id, scan and filesystem. -/
theorem claim_C10_witness :
    (FileSystemDatabase.delete_task "/r" (fun _ _ => Json.null) "shell-1" []
        ⟨[("/r/shell/shell-1.json", [("executor", Json.str "shell")])],
         ["/r", "/r/shell"]⟩).1 ≠
      .error (.fatalExit ("shell-1" ++ " does not exist in the database.")) ∧
    ∀ t : FileSystemTask, FileSystemDatabase.task_is_falsy t = false :=
  claim_C10_delete_task_guard_unreachable "/r" (fun _ _ => Json.null) "shell-1"
    [] ⟨[("/r/shell/shell-1.json", [("executor", Json.str "shell")])],
        ["/r", "/r/shell"]⟩

end Qme
